import Mathlib

/-!
Verification of the record store of the `actix-web-rsvp` service.

The store (`src/csvdb.rs`) keeps RSVP records in a single CSV file.  The
round-trip of the record fields through the `csv` crate is exact (the
repository tests this for names containing commas and newlines), so a file
is modelled by whether it starts with the canonical header row together
with the list of data rows it contains, in file order, plus the store's
`datetime` field.  The header matters: `CsvDb::remove` rewrites the file
with a `has_headers(true)` writer, which emits the header only when the
first surviving record is serialized — removing the last record leaves a
zero-byte, headerless file.  Appends (`insert`, `upsert`) use
`has_headers(false)` writers and never restore a missing header, while
every read (`get`, `get_all`, `attendance`) uses a `has_headers(true)`
reader that consumes the first row of the file as the header.  The header
written by `remove` equals the one `add_header` writes (`HEADER_LINE` is
exactly the serializer's field-name header), so a single flag captures the
header state.

The record type and its merge logic come from `src/model.rs`.  Rust string
primitives used by the store (`str::to_lowercase`, `str::trim`,
`str::split('&')`) are modelled character-wise over the string's character
list, which matches the Rust behaviour on the ASCII data the repository
exercises.
-/

namespace ActixRsvp

/-- Model of Rust `str::to_lowercase`: lowercase every character. -/
def lowercase (s : String) : String := ⟨s.data.map Char.toLower⟩

/-- Model of Rust `str::trim`: drop whitespace from both ends. -/
def trimWs (s : String) : String :=
  ⟨((s.data.dropWhile Char.isWhitespace).reverse.dropWhile Char.isWhitespace).reverse⟩

/-- Split a character list at every `'&'`, keeping empty segments,
modelling Rust `str::split('&')`. -/
def splitAmpChars : List Char → List (List Char)
  | [] => [[]]
  | c :: rest =>
    match splitAmpChars rest with
    | [] => [[]]
    | h :: t => if c = '&' then [] :: h :: t else (c :: h) :: t

/-- Model of Rust `str::split('&')` on a string. -/
def splitAmp (s : String) : List String := (splitAmpChars s.data).map (fun cs => ⟨cs⟩)

/-- `AddParams` from `src/model.rs`. -/
structure AddParams where
  name : String
  email : String
  plus_one_name : String
deriving DecidableEq

/-- `RsvpParams` from `src/model.rs`. -/
structure RsvpParams where
  name : String
  email : String
  attending : Bool
  attending_secondary : Bool
  attending_tertiary : Bool
  meal_choice : String
  dietary_restrictions : String
  plus_one_attending : Bool
  plus_one_name : String
  plus_one_meal_choice : String
  plus_one_dietary_restrictions : String
  comments : String
deriving DecidableEq

/-- `RsvpModel` from `src/model.rs`; `chrono::DateTime<Utc>` timestamps are
modelled as natural numbers. -/
structure RsvpModel where
  name : String
  email : String
  attending : Bool
  attending_secondary : Bool
  attending_tertiary : Bool
  meal_choice : String
  dietary_restrictions : String
  plus_one_attending : Bool
  plus_one_name : String
  plus_one_meal_choice : String
  plus_one_dietary_restrictions : String
  comments : String
  created_at : Nat
  updated_at : Nat
deriving DecidableEq

/-- `Attendance` from `src/model.rs` (`u32` counters modelled as `Nat`;
the claims under study do not involve counter overflow). -/
structure Attendance where
  attending : Nat
  attending_secondary : Nat
  attending_tertiary : Nat
deriving DecidableEq

/-- `Attendance::default()`. -/
def Attendance.default : Attendance :=
  { attending := 0, attending_secondary := 0, attending_tertiary := 0 }

/-- The store error type (`src/error.rs`), restricted to the variants the
store logic can produce in the file model: `Error::Add` for a duplicate
insert, `Error::Update` for the merge name-mismatch, and `Error::Csv` for
a failed deserialization (which the model reaches when a `has_headers`
read encounters a data row after having consumed a data row as the bogus
header of a headerless file).  The `csv::Error` payload is opaque to the
store and is not modelled; `Io` errors cannot occur in the file model. -/
inductive Error where
  | Add (params : AddParams)
  | Update (params : RsvpParams)
  | Csv
deriving DecidableEq

deriving instance DecidableEq for Except

/-- `RsvpModel::new_with_rsvp` from `src/model.rs`. -/
def RsvpModel.new_with_rsvp (params : RsvpParams) (datetime : Nat) : RsvpModel :=
  { name := params.name
    email := params.email
    attending := params.attending
    attending_secondary := params.attending_secondary
    attending_tertiary := params.attending_tertiary
    meal_choice := params.meal_choice
    dietary_restrictions := params.dietary_restrictions
    plus_one_attending := params.plus_one_attending
    plus_one_name := params.plus_one_name
    plus_one_meal_choice := params.plus_one_meal_choice
    plus_one_dietary_restrictions := params.plus_one_dietary_restrictions
    comments := params.comments
    created_at := datetime
    updated_at := datetime }

/-- The field assignments performed by `RsvpModel::update` (`src/model.rs`)
once its name guard has passed: every response field is overwritten, except
that `meal_choice` and `plus_one_meal_choice` are kept when the incoming
value is empty; `name` and `created_at` are untouched and `updated_at` is
refreshed. -/
def RsvpModel.merged (self : RsvpModel) (params : RsvpParams) (datetime : Nat) : RsvpModel :=
  { self with
    email := params.email
    attending := params.attending
    attending_secondary := params.attending_secondary
    attending_tertiary := params.attending_tertiary
    meal_choice :=
      if !params.meal_choice.isEmpty then params.meal_choice else self.meal_choice
    dietary_restrictions := params.dietary_restrictions
    plus_one_attending := params.plus_one_attending
    plus_one_name := params.plus_one_name
    plus_one_meal_choice :=
      if !params.plus_one_meal_choice.isEmpty then params.plus_one_meal_choice
      else self.plus_one_meal_choice
    plus_one_dietary_restrictions := params.plus_one_dietary_restrictions
    comments := params.comments
    updated_at := datetime }

/-- `RsvpModel::update` from `src/model.rs`: fails when the stored name is
not exactly the incoming name; otherwise applies the merge. -/
def RsvpModel.update (self : RsvpModel) (params : RsvpParams) (datetime : Nat) :
    Except Error RsvpModel :=
  if self.name != params.name then
    .error (.Update params)
  else
    .ok (self.merged params datetime)

/-- `RsvpModel::new_with_add` from `src/model.rs`. -/
def RsvpModel.new_with_add (params : AddParams) (datetime : Nat) : RsvpModel :=
  { name := params.name
    email := params.email
    attending := false
    attending_secondary := false
    attending_tertiary := false
    meal_choice := ""
    dietary_restrictions := ""
    plus_one_attending := false
    plus_one_name := params.plus_one_name
    plus_one_meal_choice := ""
    plus_one_dietary_restrictions := ""
    comments := ""
    created_at := datetime
    updated_at := datetime }

/-- `CsvDb` from `src/csvdb.rs`.  `header` records whether the file starts
with the canonical header row (`add_header`'s `HEADER_LINE` and the header
the `has_headers(true)` writer in `remove` emits are the same field-name
row, so one flag suffices); `rows` are the data rows in file order.  A
zero-byte file is `⟨false, [], _⟩`, a header-only file `⟨true, [], _⟩`. -/
structure CsvDb where
  header : Bool
  rows : List RsvpModel
  datetime : Nat
deriving DecidableEq

/-- `CsvDb::update_time`. -/
def CsvDb.update_time (db : CsvDb) (new_datetime : Nat) : CsvDb :=
  { db with datetime := new_datetime }

/-- The record-against-query match used by `CsvDb::get`: the query is split
on `'&'` and the record matches when its lowercased `name` or lowercased
`plus_one_name` equals some part, trimmed and lowercased. -/
def matchesQuery (rsvp : RsvpModel) (name : String) : Bool :=
  (splitAmp name).any (fun part =>
    lowercase rsvp.name == lowercase (trimWs part)
      || lowercase rsvp.plus_one_name == lowercase (trimWs part))

/-- The `has_headers(true)` reader every read operation of `src/csvdb.rs`
builds (`get`, `get_all`, `attendance`): with the canonical header, every
data row deserializes (serde maps the struct fields to the header columns
by name).  Without a header the reader consumes the FIRST data row as the
header; a lone row is therefore swallowed and the scan yields nothing,
while any further row fails to deserialize — its field names are looked up
in the bogus header, where the three boolean columns (`true`/`false`
values) can never match — and the scan aborts with a `csv` error on its
first yielded result, before any record is produced. -/
def CsvDb.read (db : CsvDb) : Except Error (List RsvpModel) :=
  if db.header then .ok db.rows
  else
    match db.rows with
    | [] => .ok []
    | [_] => .ok []
    | _ :: _ :: _ => .error .Csv

/-- `CsvDb::get_all` from `src/csvdb.rs`: the reader's full record list. -/
def CsvDb.get_all (db : CsvDb) : Except Error (List RsvpModel) := db.read

/-- `CsvDb::get` from `src/csvdb.rs`: scan the file from the start and
return the first record matching the query.  The source loop returns early
on a match and propagates the first deserialization error; since the
reader errors, if at all, on its first yielded result (see `CsvDb.read`),
the streaming loop and this factored form agree. -/
def CsvDb.get (db : CsvDb) (name : String) : Except Error (Option RsvpModel) :=
  match db.read with
  | .error e => .error e
  | .ok records => .ok (records.find? (fun rsvp => matchesQuery rsvp name))

/-- `CsvDb::remove` from `src/csvdb.rs`: read all records (an error aborts
with no mutation); if some record's lowercased name equals the trimmed
lowercased query, truncate the file and rewrite the non-matching records
with a `has_headers(true)` writer — which emits the header only when a
first record is actually serialized, so removing the last record leaves a
headerless zero-byte file — and return the first matching record. -/
def CsvDb.remove (db : CsvDb) (name : String) : Except Error (Option RsvpModel) × CsvDb :=
  match db.get_all with
  | .error e => (.error e, db)
  | .ok records =>
    let name := lowercase (trimWs name)
    match records.find? (fun r => lowercase r.name == name) with
    | some record =>
      let survivors := records.filter (fun r => lowercase r.name != name)
      (.ok (some record), { db with header := !survivors.isEmpty, rows := survivors })
    | none => (.ok none, db)

/-- `CsvDb::insert` from `src/csvdb.rs`: a `get` error propagates (no
mutation); an existing match fails with `Error::Add` (no mutation); else a
fresh record is appended by a `has_headers(false)` writer, which never
adds a header. -/
def CsvDb.insert (db : CsvDb) (params : AddParams) : Except Error RsvpModel × CsvDb :=
  match db.get params.name with
  | .error e => (.error e, db)
  | .ok (some _) => (.error (.Add params), db)
  | .ok none =>
    let record_to_insert := RsvpModel.new_with_add params db.datetime
    (.ok record_to_insert, { db with rows := db.rows ++ [record_to_insert] })

/-- `CsvDb::upsert` from `src/csvdb.rs`: remove any record for the name
(this already rewrites the file), then merge-and-append, or append a fresh
record, with a `has_headers(false)` writer.  On a merge error the file
keeps the state `remove` left; a `remove` error propagates unchanged. -/
def CsvDb.upsert (db : CsvDb) (params : RsvpParams) : Except Error RsvpModel × CsvDb :=
  match db.remove params.name with
  | (.error e, db1) => (.error e, db1)
  | (.ok maybe_record, db1) =>
    match maybe_record with
    | some record =>
      match record.update params db1.datetime with
      | .error e => (.error e, db1)
      | .ok record_to_insert =>
        (.ok record_to_insert, { db1 with rows := db1.rows ++ [record_to_insert] })
    | none =>
      let record_to_insert := RsvpModel.new_with_rsvp params db1.datetime
      (.ok record_to_insert, { db1 with rows := db1.rows ++ [record_to_insert] })

/-- One step of the loop in `CsvDb::attendance`. -/
def Attendance.addRecord (attendance : Attendance) (rsvp : RsvpModel) : Attendance :=
  let number_attending : Nat := if rsvp.plus_one_attending then 2 else 1
  { attending :=
      if rsvp.attending then attendance.attending + number_attending
      else attendance.attending
    attending_secondary :=
      if rsvp.attending_secondary then attendance.attending_secondary + number_attending
      else attendance.attending_secondary
    attending_tertiary :=
      if rsvp.attending_tertiary then attendance.attending_tertiary + number_attending
      else attendance.attending_tertiary }

/-- `CsvDb::attendance` from `src/csvdb.rs`. -/
def CsvDb.attendance (db : CsvDb) : Except Error Attendance :=
  match db.read with
  | .error e => .error e
  | .ok records => .ok (records.foldl Attendance.addRecord Attendance.default)

/-- Sequencing of `upsert` calls (the request handler calls `upsert` once
per incoming RSVP, in order). -/
def CsvDb.upsertAll (db : CsvDb) (ps : List RsvpParams) : CsvDb :=
  ps.foldl (fun d p => (d.upsert p).2) db

/-- A record fixture with the given `name` and `plus_one_name`, all other
fields at their defaults (as `RsvpModel::new_with_add` would leave them). -/
def sampleRecord (name plus_one_name : String) : RsvpModel :=
  { name := name, email := "", attending := false, attending_secondary := false,
    attending_tertiary := false, meal_choice := "", dietary_restrictions := "",
    plus_one_attending := false, plus_one_name := plus_one_name,
    plus_one_meal_choice := "", plus_one_dietary_restrictions := "",
    comments := "", created_at := 0, updated_at := 0 }

/-- An `RsvpParams` fixture with the given `name` and empty response fields. -/
def sampleParams (name : String) : RsvpParams :=
  { name := name, email := "", attending := false, attending_secondary := false,
    attending_tertiary := false, meal_choice := "", dietary_restrictions := "",
    plus_one_attending := false, plus_one_name := "", plus_one_meal_choice := "",
    plus_one_dietary_restrictions := "", comments := "" }

/-- An `AddParams` fixture with the given `name`. -/
def sampleAdd (name : String) : AddParams :=
  { name := name, email := "", plus_one_name := "" }

/-! ### Helper lemmas -/

theorem lowercase_eq_empty_iff (s : String) : lowercase s = "" ↔ s = "" := by
  cases s with
  | mk d =>
    constructor
    · intro h
      have hd : d.map Char.toLower = [] := congrArg String.data h
      have hnil : d = [] := List.map_eq_nil_iff.mp hd
      subst hnil
      rfl
    · intro h
      have hnil : d = [] := congrArg String.data h
      subst hnil
      rfl

theorem splitAmpChars_ne_nil (cs : List Char) : splitAmpChars cs ≠ [] := by
  cases cs with
  | nil => simp [splitAmpChars]
  | cons c rest =>
    cases h : splitAmpChars rest with
    | nil => simp [splitAmpChars, h]
    | cons x xs =>
      by_cases hc : c = '&' <;> simp [splitAmpChars, h, hc]

theorem splitAmp_ne_nil (s : String) : splitAmp s ≠ [] := by
  intro h
  exact splitAmpChars_ne_nil s.data (List.map_eq_nil_iff.mp h)

theorem find?_of_filter_singleton {α} (p : α → Bool) (l : List α) (a : α)
    (h : l.filter p = [a]) : l.find? p = some a := by
  induction l with
  | nil => simp at h
  | cons x xs ih =>
    by_cases hx : p x
    · rw [List.filter_cons_of_pos hx] at h
      have hxa : x = a := (List.cons.injEq ..).mp h |>.1
      rw [List.find?_cons_of_pos _ hx, hxa]
    · rw [List.filter_cons_of_neg hx] at h
      rw [List.find?_cons_of_neg _ hx]
      exact ih h

theorem length_filter_not_of_filter_singleton {α} (p : α → Bool) (l : List α) (a : α)
    (h : l.filter p = [a]) : (l.filter (fun x => !p x)).length + 1 = l.length := by
  have hlen := List.length_eq_length_filter_add p (l := l)
  rw [h] at hlen
  simp only [List.length_cons, List.length_nil] at hlen
  omega

theorem filter_key_singleton {α β} [DecidableEq β] (f : α → β) (l : List α) (a : α)
    (hnd : (l.map f).Nodup) (ha : a ∈ l) : l.filter (fun x => f x == f a) = [a] := by
  induction l with
  | nil => simp at ha
  | cons x xs ih =>
    simp only [List.map_cons, List.nodup_cons, List.mem_map] at hnd
    rcases List.mem_cons.mp ha with hax | hmem
    · subst hax
      rw [List.filter_cons_of_pos (by simp)]
      have hnil : xs.filter (fun y => f y == f a) = [] := by
        refine List.filter_eq_nil_iff.mpr fun y hy => ?_
        simp only [beq_iff_eq]
        intro hfy
        exact hnd.1 ⟨y, hy, hfy⟩
      rw [hnil]
    · have hfx : f x ≠ f a := by
        intro hfx
        exact hnd.1 ⟨a, hmem, hfx.symm⟩
      rw [List.filter_cons_of_neg (by simpa using hfx)]
      exact ih hnd.2 hmem

theorem find?_congr {α} (p q : α → Bool) (l : List α)
    (h : ∀ x ∈ l, p x = q x) : l.find? p = l.find? q := by
  induction l with
  | nil => rfl
  | cons x xs ih =>
    have hx := h x (List.mem_cons_self x xs)
    by_cases hp : p x
    · rw [List.find?_cons_of_pos _ hp, List.find?_cons_of_pos _ (hx ▸ hp)]
    · rw [List.find?_cons_of_neg _ hp, List.find?_cons_of_neg _ (hx ▸ hp)]
      exact ih fun y hy => h y (List.mem_cons_of_mem x hy)

theorem find?_isSome_of_mem {α} (p : α → Bool) (l : List α) (a : α)
    (ha : a ∈ l) (hp : p a) : (l.find? p).isSome = true := by
  cases hf : l.find? p with
  | none => exact absurd hp (by simpa using List.find?_eq_none.mp hf a ha)
  | some b => rfl

theorem find?_split {α} (p : α → Bool) (l : List α) (a : α) (h : l.find? p = some a) :
    p a = true ∧ ∃ l1 l2, l = l1 ++ a :: l2 ∧ ∀ x ∈ l1, p x = false := by
  induction l with
  | nil => simp at h
  | cons x xs ih =>
    by_cases hx : p x
    · rw [List.find?_cons_of_pos _ hx] at h
      injection h with h
      subst h
      exact ⟨hx, [], xs, rfl, by simp⟩
    · rw [List.find?_cons_of_neg _ hx] at h
      obtain ⟨hpa, l1, l2, heq, hl1⟩ := ih h
      refine ⟨hpa, x :: l1, l2, by simp [heq], ?_⟩
      intro y hy
      rcases List.mem_cons.mp hy with hy | hy
      · subst hy
        exact Bool.eq_false_iff.mpr hx
      · exact hl1 y hy

theorem matchesQuery_eq_true_iff (r : RsvpModel) (q : String) :
    matchesQuery r q = true ↔ ∃ s ∈ splitAmp q,
      lowercase r.name = lowercase (trimWs s)
        ∨ lowercase r.plus_one_name = lowercase (trimWs s) := by
  simp [matchesQuery, List.any_eq_true]

theorem matchesQuery_eq_false_iff (r : RsvpModel) (q : String) :
    matchesQuery r q = false ↔ ∀ s ∈ splitAmp q,
      lowercase r.name ≠ lowercase (trimWs s)
        ∧ lowercase r.plus_one_name ≠ lowercase (trimWs s) := by
  simp [matchesQuery, List.any_eq_false, not_or]

/-! ### Shape lemmas for the store operations -/

theorem read_of_header (db : CsvDb) (hh : db.header = true) : db.read = .ok db.rows := by
  simp [CsvDb.read, hh]

theorem get_all_of_header (db : CsvDb) (hh : db.header = true) : db.get_all = .ok db.rows :=
  read_of_header db hh

theorem get_of_header (db : CsvDb) (n : String) (hh : db.header = true) :
    db.get n = .ok (db.rows.find? (fun rsvp => matchesQuery rsvp n)) := by
  simp [CsvDb.get, read_of_header db hh]

theorem remove_of_find?_none (db : CsvDb) (n : String) (hh : db.header = true)
    (h : db.rows.find? (fun r => lowercase r.name == lowercase (trimWs n)) = none) :
    db.remove n = (.ok none, db) := by
  simp [CsvDb.remove, CsvDb.get_all, read_of_header db hh, h]

theorem remove_of_find?_some (db : CsvDb) (n : String) (record : RsvpModel)
    (hh : db.header = true)
    (h : db.rows.find? (fun r => lowercase r.name == lowercase (trimWs n)) = some record) :
    db.remove n =
      (.ok (some record),
        { header := !(db.rows.filter
              (fun r => lowercase r.name != lowercase (trimWs n))).isEmpty,
          rows := db.rows.filter (fun r => lowercase r.name != lowercase (trimWs n)),
          datetime := db.datetime }) := by
  simp [CsvDb.remove, CsvDb.get_all, read_of_header db hh, h]

theorem update_ok_of_name_eq (self : RsvpModel) (p : RsvpParams) (t : Nat)
    (h : self.name = p.name) : self.update p t = .ok (self.merged p t) := by
  simp [RsvpModel.update, h]

theorem update_error_of_name_ne (self : RsvpModel) (p : RsvpParams) (t : Nat)
    (h : self.name ≠ p.name) : self.update p t = .error (.Update p) := by
  simp [RsvpModel.update, h]

theorem merged_name (self : RsvpModel) (p : RsvpParams) (t : Nat) :
    (self.merged p t).name = self.name := rfl

theorem merged_created_at (self : RsvpModel) (p : RsvpParams) (t : Nat) :
    (self.merged p t).created_at = self.created_at := rfl

theorem merged_updated_at (self : RsvpModel) (p : RsvpParams) (t : Nat) :
    (self.merged p t).updated_at = t := rfl

theorem upsert_fresh (db : CsvDb) (p : RsvpParams) (hh : db.header = true)
    (h : db.rows.find? (fun x => lowercase x.name == lowercase (trimWs p.name)) = none) :
    db.upsert p = (.ok (RsvpModel.new_with_rsvp p db.datetime),
      { db with rows := db.rows ++ [RsvpModel.new_with_rsvp p db.datetime] }) := by
  simp [CsvDb.upsert, remove_of_find?_none db p.name hh h]

theorem upsert_found (db : CsvDb) (p : RsvpParams) (record : RsvpModel)
    (hh : db.header = true)
    (hf : db.rows.find? (fun x => lowercase x.name == lowercase (trimWs p.name)) = some record)
    (hn : record.name = p.name) :
    db.upsert p = (.ok (record.merged p db.datetime),
      { header := !(db.rows.filter
            (fun x => lowercase x.name != lowercase (trimWs p.name))).isEmpty,
        rows := db.rows.filter (fun x => lowercase x.name != lowercase (trimWs p.name))
          ++ [record.merged p db.datetime],
        datetime := db.datetime }) := by
  simp [CsvDb.upsert, remove_of_find?_some db p.name record hh hf,
    update_ok_of_name_eq _ _ _ hn]

theorem upsert_mismatch (db : CsvDb) (p : RsvpParams) (record : RsvpModel)
    (hh : db.header = true)
    (hf : db.rows.find? (fun x => lowercase x.name == lowercase (trimWs p.name)) = some record)
    (hn : record.name ≠ p.name) :
    db.upsert p = (.error (.Update p),
      { header := !(db.rows.filter
            (fun x => lowercase x.name != lowercase (trimWs p.name))).isEmpty,
        rows := db.rows.filter (fun x => lowercase x.name != lowercase (trimWs p.name)),
        datetime := db.datetime }) := by
  simp [CsvDb.upsert, remove_of_find?_some db p.name record hh hf,
    update_error_of_name_ne _ _ _ hn]

theorem upsert_ok_shape (db : CsvDb) (p : RsvpParams) (r : RsvpModel) (db' : CsvDb)
    (hh : db.header = true) (h : db.upsert p = (.ok r, db')) :
    r.name = p.name ∧ db'.datetime = db.datetime ∧
    db'.rows =
      db.rows.filter (fun x => lowercase x.name != lowercase (trimWs p.name)) ++ [r] ∧
    (db'.header = true ∨ db'.rows.length = 1) := by
  cases hf : db.rows.find? (fun x => lowercase x.name == lowercase (trimWs p.name)) with
  | none =>
    rw [upsert_fresh db p hh hf] at h
    injection h with h1 h2
    injection h1 with h1
    subst h1
    subst h2
    refine ⟨rfl, rfl, ?_, Or.inl hh⟩
    have hall : db.rows.filter (fun x => lowercase x.name != lowercase (trimWs p.name))
        = db.rows := by
      refine List.filter_eq_self.mpr fun x hx => ?_
      have := List.find?_eq_none.mp hf x hx
      simpa [bne] using this
    simp [hall]
  | some record =>
    by_cases hn : record.name = p.name
    · rw [upsert_found db p record hh hf hn] at h
      injection h with h1 h2
      injection h1 with h1
      subst h1
      subst h2
      refine ⟨(merged_name record p db.datetime).trans hn, rfl, rfl, ?_⟩
      cases hemp : (db.rows.filter
          (fun x => lowercase x.name != lowercase (trimWs p.name))).isEmpty with
      | true =>
        refine Or.inr ?_
        have hnil := List.isEmpty_iff.mp hemp
        simp [hnil]
      | false =>
        exact Or.inl (by simp [hemp])
    · rw [upsert_mismatch db p record hh hf hn] at h
      injection h with h1 h2
      exact absurd h1 (by simp)

theorem upsertAll_shape (ps : List RsvpParams) : ∀ (db : CsvDb),
    db.header = true →
    (∀ p ∈ ps, trimWs p.name = p.name) →
    (ps.map (fun p => lowercase p.name)).Nodup →
    (∀ p ∈ ps, ∀ x ∈ db.rows, lowercase x.name ≠ lowercase p.name) →
    (db.upsertAll ps).rows
        = db.rows ++ ps.map (fun p => RsvpModel.new_with_rsvp p db.datetime)
      ∧ (db.upsertAll ps).header = true
      ∧ (db.upsertAll ps).datetime = db.datetime := by
  induction ps with
  | nil =>
    intro db hh _ _ _
    exact ⟨by simp [CsvDb.upsertAll], by simp [CsvDb.upsertAll, hh], by simp [CsvDb.upsertAll]⟩
  | cons p rest ih =>
    intro db hh htrim hnd hfresh
    have hkey : trimWs p.name = p.name := htrim p (List.mem_cons_self p rest)
    have hnone : db.rows.find? (fun x => lowercase x.name == lowercase (trimWs p.name))
        = none := by
      rw [hkey]
      refine List.find?_eq_none.mpr fun x hx => ?_
      simpa using hfresh p (List.mem_cons_self p rest) x hx
    have hstep := upsert_fresh db p hh hnone
    have hfold : db.upsertAll (p :: rest) =
        CsvDb.upsertAll
          { db with rows := db.rows ++ [RsvpModel.new_with_rsvp p db.datetime] } rest := by
      simp [CsvDb.upsertAll, hstep]
    simp only [List.map_cons, List.nodup_cons, List.mem_map] at hnd
    have hrest := ih
      { db with rows := db.rows ++ [RsvpModel.new_with_rsvp p db.datetime] }
      hh
      (fun q hq => htrim q (List.mem_cons_of_mem p hq))
      hnd.2
      (by
        intro q hq x hx
        rcases List.mem_append.mp hx with hx | hx
        · exact hfresh q (List.mem_cons_of_mem p hq) x hx
        · have hxp : x = RsvpModel.new_with_rsvp p db.datetime := by simpa using hx
          subst hxp
          intro hcontra
          exact hnd.1 ⟨q, hq, hcontra.symm⟩)
    rw [hfold]
    refine ⟨?_, hrest.2.1, hrest.2.2⟩
    rw [hrest.1]
    simp [List.append_assoc]

theorem attendance_foldl (l : List RsvpModel) (a : Attendance) :
    (l.foldl Attendance.addRecord a).attending
        = a.attending + (l.map (fun r =>
            if r.attending then (if r.plus_one_attending then 2 else 1) else 0)).sum
      ∧ (l.foldl Attendance.addRecord a).attending_secondary
        = a.attending_secondary + (l.map (fun r =>
            if r.attending_secondary then (if r.plus_one_attending then 2 else 1) else 0)).sum
      ∧ (l.foldl Attendance.addRecord a).attending_tertiary
        = a.attending_tertiary + (l.map (fun r =>
            if r.attending_tertiary then (if r.plus_one_attending then 2 else 1) else 0)).sum := by
  induction l generalizing a with
  | nil => simp
  | cons r rest ih =>
    simp only [List.foldl_cons, List.map_cons, List.sum_cons]
    obtain ⟨h1, h2, h3⟩ := ih (Attendance.addRecord a r)
    refine ⟨?_, ?_, ?_⟩
    · rw [h1]
      by_cases ha : r.attending <;> by_cases hp : r.plus_one_attending <;>
        simp [Attendance.addRecord, ha, hp] <;> omega
    · rw [h2]
      by_cases hs : r.attending_secondary <;> by_cases hp : r.plus_one_attending <;>
        simp [Attendance.addRecord, hs, hp] <;> omega
    · rw [h3]
      by_cases ht : r.attending_tertiary <;> by_cases hp : r.plus_one_attending <;>
        simp [Attendance.addRecord, ht, hp] <;> omega

/-! ### Claim C9 -/

/-- Claim C9: on a file with its header, `attendance` returns three
per-tier totals, each record contributing, independently per tier, weight
2 when `plus_one_attending` and the tier flag hold, weight 1 when the tier
flag alone holds, and 0 otherwise; in the spec's two-record scenario the
first tier totals 3. -/
theorem c9_attendance_weights :
    (∀ db : CsvDb, db.header = true →
        db.attendance = .ok
          { attending := (db.rows.map (fun r =>
              if r.attending then (if r.plus_one_attending then 2 else 1) else 0)).sum,
            attending_secondary := (db.rows.map (fun r =>
              if r.attending_secondary then (if r.plus_one_attending then 2 else 1) else 0)).sum,
            attending_tertiary := (db.rows.map (fun r =>
              if r.attending_tertiary then (if r.plus_one_attending then 2 else 1) else 0)).sum })
      ∧ (CsvDb.attendance
          ⟨true, [{ sampleRecord "a" "" with attending := true, plus_one_attending := true },
            { sampleRecord "b" "" with attending := true }], 0⟩
          = .ok { attending := 3, attending_secondary := 0, attending_tertiary := 0 }) := by
  constructor
  · intro db hh
    obtain ⟨h1, h2, h3⟩ := attendance_foldl db.rows Attendance.default
    rcases hfoldv : db.rows.foldl Attendance.addRecord Attendance.default with ⟨x, y, z⟩
    rw [hfoldv] at h1 h2 h3
    simp only [Attendance.default] at h1 h2 h3
    simp [CsvDb.attendance, read_of_header db hh, hfoldv, h1, h2, h3]
  · decide

/-- Witness for C9 at a concrete input. -/
theorem c9_witness :
    CsvDb.attendance ⟨true, [sampleRecord "w" ""], 5⟩
      = .ok
        { attending := ([sampleRecord "w" ""].map (fun r =>
            if r.attending then (if r.plus_one_attending then 2 else 1) else 0)).sum,
          attending_secondary := ([sampleRecord "w" ""].map (fun r =>
            if r.attending_secondary then (if r.plus_one_attending then 2 else 1) else 0)).sum,
          attending_tertiary := ([sampleRecord "w" ""].map (fun r =>
            if r.attending_tertiary then (if r.plus_one_attending then 2 else 1) else 0)).sum } :=
  c9_attendance_weights.1 ⟨true, [sampleRecord "w" ""], 5⟩ rfl

/-! ### Claim C5 -/

/-- Claim C5 counterexample: the claim allows only `meal_choice` to be
protected from an empty-string overwrite, but `RsvpModel::update` also
leaves `plus_one_meal_choice` unchanged when the incoming value is empty:
here the incoming `plus_one_meal_choice` is `""` yet the merged record
keeps `"Veg"` instead of being overwritten to `""`. -/
theorem c5_counterexample :
    ((RsvpModel.update { sampleRecord "a" "" with plus_one_meal_choice := "Veg" }
        (sampleParams "a") 7).map (fun r => r.plus_one_meal_choice) = .ok "Veg")
      ∧ (sampleParams "a").plus_one_meal_choice = ""
      ∧ (sampleParams "a").name = ({ sampleRecord "a" "" with
          plus_one_meal_choice := "Veg" } : RsvpModel).name := by
  decide

/-- Claim C5 (amended): when the names agree exactly, `update` succeeds and
overwrites every field except `name` and `created_at` with the incoming
field — including overwrites with empty strings — with TWO exceptions: an
empty incoming `meal_choice` and an empty incoming `plus_one_meal_choice`
each leave the previous value unchanged; `updated_at` is set to the
operation's time. -/
theorem c5_update_merge_semantics :
    ∀ (self : RsvpModel) (p : RsvpParams) (t : Nat),
      self.name = p.name →
      self.update p t = .ok
        { name := self.name
          email := p.email
          attending := p.attending
          attending_secondary := p.attending_secondary
          attending_tertiary := p.attending_tertiary
          meal_choice := if p.meal_choice.isEmpty then self.meal_choice else p.meal_choice
          dietary_restrictions := p.dietary_restrictions
          plus_one_attending := p.plus_one_attending
          plus_one_name := p.plus_one_name
          plus_one_meal_choice :=
            if p.plus_one_meal_choice.isEmpty then self.plus_one_meal_choice
            else p.plus_one_meal_choice
          plus_one_dietary_restrictions := p.plus_one_dietary_restrictions
          comments := p.comments
          created_at := self.created_at
          updated_at := t } := by
  intro self p t hname
  rw [update_ok_of_name_eq _ _ _ hname]
  cases h1 : p.meal_choice.isEmpty <;> cases h2 : p.plus_one_meal_choice.isEmpty <;>
    simp [RsvpModel.merged, h1, h2]

/-- Witness for C5 at concrete inputs. -/
theorem c5_witness :
    RsvpModel.update
        { sampleRecord "a" "" with meal_choice := "M", plus_one_meal_choice := "V" }
        (sampleParams "a") 7
      = .ok { sampleRecord "a" "" with
              meal_choice := "M", plus_one_meal_choice := "V", updated_at := 7 } := by
  have h := c5_update_merge_semantics
    { sampleRecord "a" "" with meal_choice := "M", plus_one_meal_choice := "V" }
    (sampleParams "a") 7 (by decide)
  simpa using h

/-! ### Claim C2 -/

/-- Claim C2 counterexample: the store holds a record named `"a&b"`, and
`insert` with `AddParams` of that very name succeeds and appends a second
row instead of failing with `Error::Add` and leaving the file unmodified:
the duplicate lookup splits the queried name on `'&'`, so no part ever
equals the stored name. -/
theorem c2_counterexample :
    ((CsvDb.insert ⟨true, [sampleRecord "a&b" ""], 3⟩ (sampleAdd "a&b")).1
        = .ok (RsvpModel.new_with_add (sampleAdd "a&b") 3))
      ∧ (CsvDb.insert ⟨true, [sampleRecord "a&b" ""], 3⟩ (sampleAdd "a&b")).2.rows
          = [sampleRecord "a&b" "", RsvpModel.new_with_add (sampleAdd "a&b") 3]
      ∧ (sampleRecord "a&b" "").name = (sampleAdd "a&b").name := by
  decide

/-- Claim C2 (amended): on a file with its header, for a name that contains
no `'&'` and carries no surrounding whitespace, if the store already holds
a record with exactly that name then `insert` with `AddParams` of the same
name fails with `Error::Add` carrying the conflicting parameters, and the
store is left completely unmodified. -/
theorem c2_insert_duplicate :
    ∀ (db : CsvDb) (p : AddParams) (R : RsvpModel),
      db.header = true →
      R ∈ db.rows → R.name = p.name →
      splitAmp p.name = [p.name] → trimWs p.name = p.name →
      (db.insert p).1 = .error (.Add p) ∧ (db.insert p).2 = db := by
  intro db p R hh hmem hname hsplit htrim
  have hmatch : matchesQuery R p.name = true := by
    simp [matchesQuery, hsplit, htrim, hname]
  have hget := get_of_header db p.name hh
  cases hf : db.rows.find? (fun rsvp => matchesQuery rsvp p.name) with
  | none => exact absurd hmatch (by simpa using List.find?_eq_none.mp hf R hmem)
  | some m =>
    rw [hf] at hget
    constructor <;> simp [CsvDb.insert, hget]

/-- Witness for C2 at concrete inputs. -/
theorem c2_witness :
    ((CsvDb.insert ⟨true, [sampleRecord "john" ""], 0⟩ (sampleAdd "john")).1
        = .error (.Add (sampleAdd "john")))
      ∧ (CsvDb.insert ⟨true, [sampleRecord "john" ""], 0⟩ (sampleAdd "john")).2
          = ⟨true, [sampleRecord "john" ""], 0⟩ :=
  c2_insert_duplicate ⟨true, [sampleRecord "john" ""], 0⟩ (sampleAdd "john")
    (sampleRecord "john" "") rfl (by decide) (by decide) (by decide) (by decide)

/-! ### Claim C3 -/

/-- Claim C3 counterexample: inserting a name with surrounding whitespace
succeeds, but `get` with the very same string (allowed by the claim, which
quantifies over queries equal to the name up to case and surrounding
whitespace) returns no record: the query side is trimmed while the stored
name is not. -/
theorem c3_counterexample :
    ((CsvDb.insert ⟨true, [], 0⟩ (sampleAdd " John ")).1
        = .ok (RsvpModel.new_with_add (sampleAdd " John ") 0))
      ∧ ((CsvDb.insert ⟨true, [], 0⟩ (sampleAdd " John ")).2.get " John " = .ok none) := by
  decide

/-- Claim C3 (amended): on a file with its header, for a name without `'&'`
and without surrounding whitespace, a successful `insert` followed by
`get` with any `'&'`-free query that trims and lowercases to the same name
returns exactly the record `insert` returned, all fields and timestamps
included. -/
theorem c3_insert_then_get :
    ∀ (db db' : CsvDb) (p : AddParams) (q : String) (r : RsvpModel),
      db.header = true →
      trimWs p.name = p.name → splitAmp p.name = [p.name] →
      splitAmp q = [q] → lowercase (trimWs q) = lowercase p.name →
      db.insert p = (.ok r, db') →
      db'.get q = .ok (some r) := by
  intro db db' p q r hh htrim hsplitp hsplitq hq hins
  have hget := get_of_header db p.name hh
  cases hf : db.rows.find? (fun rsvp => matchesQuery rsvp p.name) with
  | some m =>
    rw [hf] at hget
    simp [CsvDb.insert, hget] at hins
  | none =>
    rw [hf] at hget
    simp only [CsvDb.insert, hget] at hins
    injection hins with h1 h2
    injection h1 with h1
    subst h1
    subst h2
    have hh' : ({ db with
        rows := db.rows ++ [RsvpModel.new_with_add p db.datetime] } : CsvDb).header = true := hh
    rw [get_of_header _ q hh']
    have hnone : db.rows.find? (fun x => matchesQuery x q) = none := by
      refine List.find?_eq_none.mpr fun x hx => ?_
      have hx2 := List.find?_eq_none.mp hf x hx
      simp [matchesQuery, hsplitp, htrim] at hx2
      simp [matchesQuery, hsplitq, hq]
      exact hx2
    show Except.ok ((db.rows ++ [RsvpModel.new_with_add p db.datetime]).find?
        (fun x => matchesQuery x q)) = _
    rw [List.find?_append, hnone]
    simp [matchesQuery, hsplitq, hq, RsvpModel.new_with_add]

/-- Witness for C3 at concrete inputs. -/
theorem c3_witness :
    (CsvDb.insert ⟨true, [], 0⟩ (sampleAdd "john")).2.get "JOHN "
      = .ok (some (RsvpModel.new_with_add (sampleAdd "john") 0)) :=
  c3_insert_then_get ⟨true, [], 0⟩ ⟨true, [RsvpModel.new_with_add (sampleAdd "john") 0], 0⟩
    (sampleAdd "john") "JOHN " (RsvpModel.new_with_add (sampleAdd "john") 0)
    rfl (by decide) (by decide) (by decide) (by decide) (by decide)

/-! ### Claim C7 -/

/-- Claim C7 counterexample, covering the three ways the claim fails on the
code: (a) no stored record's name case-insensitively equals the queried
`" john "` (the stored `"john"` differs by the whitespace), yet `remove`
trims the query, matches, returns the record and mutates the store;
(b) with two stored rows whose lowercased names coincide (reachable via
the `insert` `'&'` defect), `remove` deletes BOTH, so `listAll` shrinks by
two, not one; (c) removing the only record rewrites the file with zero
survivors, and the `has_headers` writer then emits nothing — the header is
NOT preserved. -/
theorem c7_counterexample :
    ([sampleRecord "john" ""].all (fun r => lowercase r.name != lowercase " john ") = true)
      ∧ ((CsvDb.remove ⟨true, [sampleRecord "john" ""], 0⟩ " john ").1
          = .ok (some (sampleRecord "john" "")))
      ∧ ((CsvDb.remove ⟨true, [sampleRecord "john" ""], 0⟩ " john ").2.rows = [])
      ∧ (CsvDb.get_all ⟨true, [sampleRecord "A&B" "", sampleRecord "a&b" ""], 0⟩
          = .ok [sampleRecord "A&B" "", sampleRecord "a&b" ""])
      ∧ ((CsvDb.remove ⟨true, [sampleRecord "A&B" "", sampleRecord "a&b" ""], 0⟩ "A&B").1
          = .ok (some (sampleRecord "A&B" "")))
      ∧ ((CsvDb.remove ⟨true, [sampleRecord "A&B" "", sampleRecord "a&b" ""], 0⟩ "A&B").2.get_all
          = .ok [])
      ∧ ((⟨true, [sampleRecord "solo" ""], 0⟩ : CsvDb).header = true)
      ∧ ((CsvDb.remove ⟨true, [sampleRecord "solo" ""], 0⟩ "solo").2.header = false) := by
  decide

/-- Claim C7 (amended): on a file with its header, the match criterion is
the trimmed lowercased query against the lowercased (untrimmed) stored
name.  When no stored record matches, `remove` returns no record and
leaves the store unchanged.  When exactly one stored record matches,
`remove` returns it; the surviving rows are exactly the non-matching ones
in their original relative order (a sublist of the original file), which
is also what `listAll` reports afterwards — one record fewer; and the
rewritten file keeps its header precisely when at least one record
survives (removing the last record leaves a headerless zero-byte file). -/
theorem c7_remove_semantics :
    (∀ (db : CsvDb) (n : String),
        db.header = true →
        db.rows.find? (fun r => lowercase r.name == lowercase (trimWs n)) = none →
        db.remove n = (.ok none, db))
      ∧ (∀ (db : CsvDb) (n : String) (R : RsvpModel),
          db.header = true →
          db.rows.filter (fun r => lowercase r.name == lowercase (trimWs n)) = [R] →
          (db.remove n).1 = .ok (some R)
            ∧ (db.remove n).2.rows
                = db.rows.filter (fun r => lowercase r.name != lowercase (trimWs n))
            ∧ (db.remove n).2.get_all
                = .ok (db.rows.filter (fun r => lowercase r.name != lowercase (trimWs n)))
            ∧ (db.remove n).2.rows.length + 1 = db.rows.length
            ∧ List.Sublist (db.remove n).2.rows db.rows
            ∧ (db.remove n).2.header
                = !(db.rows.filter
                    (fun r => lowercase r.name != lowercase (trimWs n))).isEmpty) := by
  constructor
  · intro db n hh h
    exact remove_of_find?_none db n hh h
  · intro db n R hh hfilter
    have hfind := find?_of_filter_singleton _ _ _ hfilter
    rw [remove_of_find?_some db n R hh hfind]
    refine ⟨rfl, rfl, ?_, ?_, ?_, rfl⟩
    · cases hemp : (db.rows.filter
          (fun r => lowercase r.name != lowercase (trimWs n))).isEmpty with
      | true =>
        have hnil := List.isEmpty_iff.mp hemp
        simp [CsvDb.get_all, CsvDb.read, hemp, hnil]
      | false =>
        simp [CsvDb.get_all, CsvDb.read, hemp]
    · exact length_filter_not_of_filter_singleton _ _ _ hfilter
    · exact List.filter_sublist db.rows

/-- Witness for C7 at concrete inputs. -/
theorem c7_witness :
    (CsvDb.remove ⟨true, [sampleRecord "b" ""], 0⟩ "zzz"
        = (.ok none, ⟨true, [sampleRecord "b" ""], 0⟩))
      ∧ ((CsvDb.remove ⟨true, [sampleRecord "b" "", sampleRecord "c" ""], 0⟩ " B ").1
            = .ok (some (sampleRecord "b" ""))
          ∧ (CsvDb.remove ⟨true, [sampleRecord "b" "", sampleRecord "c" ""], 0⟩ " B ").2.rows
              = [sampleRecord "b" "", sampleRecord "c" ""].filter
                  (fun r => lowercase r.name != lowercase (trimWs " B "))
          ∧ (CsvDb.remove ⟨true, [sampleRecord "b" "", sampleRecord "c" ""], 0⟩ " B ").2.get_all
              = .ok ([sampleRecord "b" "", sampleRecord "c" ""].filter
                  (fun r => lowercase r.name != lowercase (trimWs " B ")))
          ∧ (CsvDb.remove
                ⟨true, [sampleRecord "b" "", sampleRecord "c" ""], 0⟩ " B ").2.rows.length + 1
              = [sampleRecord "b" "", sampleRecord "c" ""].length
          ∧ List.Sublist
              (CsvDb.remove ⟨true, [sampleRecord "b" "", sampleRecord "c" ""], 0⟩ " B ").2.rows
              [sampleRecord "b" "", sampleRecord "c" ""]
          ∧ (CsvDb.remove ⟨true, [sampleRecord "b" "", sampleRecord "c" ""], 0⟩ " B ").2.header
              = !([sampleRecord "b" "", sampleRecord "c" ""].filter
                  (fun r => lowercase r.name != lowercase (trimWs " B "))).isEmpty) :=
  ⟨c7_remove_semantics.1 ⟨true, [sampleRecord "b" ""], 0⟩ "zzz" rfl (by decide),
   c7_remove_semantics.2 ⟨true, [sampleRecord "b" "", sampleRecord "c" ""], 0⟩ " B "
     (sampleRecord "b" "") rfl (by decide)⟩

/-! ### Claim C4 -/

/-- Claim C4 counterexample: the claim quantifies over every store that
contains a record `R` whose name differs from `p.name` only in case; in a
store that also holds an earlier record whose name equals `p.name`
exactly, `upsert` merges into that earlier record and succeeds instead of
returning an `Update` error (while `R` is still silently dropped). -/
theorem c4_counterexample :
    ((CsvDb.upsert ⟨true, [sampleRecord "john" "", sampleRecord "John" ""], 5⟩
          (sampleParams "john")).1
        ≠ .error (.Update (sampleParams "john")))
      ∧ sampleRecord "John" ""
          ∈ ([sampleRecord "john" "", sampleRecord "John" ""] : List RsvpModel)
      ∧ (sampleParams "john").name ≠ (sampleRecord "John" "").name
      ∧ lowercase (trimWs (sampleParams "john").name)
          = lowercase (sampleRecord "John" "").name := by
  decide

/-- Claim C4 (amended): on a file with its header, when `R` is the only
stored record whose lowercased name equals the trimmed lowercased
`p.name`, and `p.name` is not exactly `R.name`, `upsert p` returns the
`Update` error and the store has already been rewritten without `R`: the
record is lost on the error path. -/
theorem c4_upsert_mutates_on_error :
    ∀ (db : CsvDb) (p : RsvpParams) (R : RsvpModel),
      db.header = true →
      p.name ≠ R.name →
      db.rows.filter (fun r => lowercase r.name == lowercase (trimWs p.name)) = [R] →
      (db.upsert p).1 = .error (.Update p)
        ∧ R ∉ (db.upsert p).2.rows
        ∧ (db.upsert p).2.rows
            = db.rows.filter (fun r => lowercase r.name != lowercase (trimWs p.name)) := by
  intro db p R hh hne hfilter
  have hfind := find?_of_filter_singleton _ _ _ hfilter
  have hRin : R ∈ db.rows.filter
      (fun r => lowercase r.name == lowercase (trimWs p.name)) := by
    rw [hfilter]
    exact List.mem_singleton.mpr rfl
  have hRkey := (List.mem_filter.mp hRin).2
  rw [upsert_mismatch db p R hh hfind (fun h => hne h.symm)]
  refine ⟨rfl, ?_, rfl⟩
  intro hmem
  have hnot := (List.mem_filter.mp hmem).2
  simp only [bne_iff_ne, ne_eq] at hnot
  exact hnot (by simpa using hRkey)

/-- Witness for C4 at concrete inputs. -/
theorem c4_witness :
    ((CsvDb.upsert ⟨true, [sampleRecord "John" ""], 5⟩ (sampleParams "john")).1
        = .error (.Update (sampleParams "john")))
      ∧ sampleRecord "John" "" ∉ (CsvDb.upsert ⟨true, [sampleRecord "John" ""], 5⟩
          (sampleParams "john")).2.rows
      ∧ (CsvDb.upsert ⟨true, [sampleRecord "John" ""], 5⟩ (sampleParams "john")).2.rows
          = [sampleRecord "John" ""].filter
              (fun r => lowercase r.name != lowercase (trimWs (sampleParams "john").name)) :=
  c4_upsert_mutates_on_error ⟨true, [sampleRecord "John" ""], 5⟩ (sampleParams "john")
    (sampleRecord "John" "") rfl (by decide) (by decide)

/-! ### Claim C10 -/

/-- Claim C10 counterexample: the store holds a record with empty
`plus_one_name` (the second one), but for the query `" & Bob"` the scan
returns the FIRST record matching any part — here the record named `"Bob"`
whose `plus_one_name` is not empty — not the first record with an empty
`plus_one_name` as the claim states. -/
theorem c10_counterexample :
    (CsvDb.get ⟨true, [sampleRecord "Bob" "x", sampleRecord "Al" ""], 0⟩ " & Bob"
        = .ok (some (sampleRecord "Bob" "x")))
      ∧ (sampleRecord "Bob" "x").plus_one_name ≠ ""
      ∧ (sampleRecord "Al" "").plus_one_name = "" := by
  decide

/-- Claim C10 (amended): on a file with its header, an empty query part,
obtained by trimming, matches any record with empty `plus_one_name`, so
`get` returns a record whenever such a record exists and some part of the
query trims to the empty string; and when EVERY part of the query trims to
empty (an empty or whitespace-only query) and no stored record has an
empty name, `get` returns precisely the first record whose
`plus_one_name` is empty. -/
theorem c10_get_empty_part :
    (∀ (db : CsvDb) (q : String) (r : RsvpModel),
        db.header = true →
        r ∈ db.rows → r.plus_one_name = "" →
        (∃ s ∈ splitAmp q, trimWs s = "") →
        (db.get q).map Option.isSome = .ok true)
      ∧ (∀ (db : CsvDb) (q : String),
          db.header = true →
          (∀ s ∈ splitAmp q, trimWs s = "") →
          (∀ x ∈ db.rows, x.name ≠ "") →
          db.get q = .ok (db.rows.find? (fun x => x.plus_one_name == ""))) := by
  have h0 : lowercase "" = "" := rfl
  constructor
  · rintro db q r hh hr hplus ⟨s, hs, hstrim⟩
    rw [get_of_header db q hh]
    have hmq : matchesQuery r q = true := by
      simp only [matchesQuery]
      refine List.any_eq_true.mpr ⟨s, hs, ?_⟩
      simp [hstrim, hplus, h0]
    have hsome := find?_isSome_of_mem (fun rsvp => matchesQuery rsvp q) db.rows r hr hmq
    simpa [Except.map] using hsome
  · intro db q hh hparts hnames
    rw [get_of_header db q hh]
    refine congrArg Except.ok ?_
    refine find?_congr _ _ _ fun x hx => ?_
    have hxname : lowercase x.name ≠ "" := by
      intro hcontra
      exact hnames x hx ((lowercase_eq_empty_iff x.name).mp hcontra)
    simp only [matchesQuery]
    cases hsp : splitAmp q with
    | nil => exact absurd hsp (splitAmp_ne_nil q)
    | cons s rest =>
      cases hc : x.plus_one_name == "" with
      | true =>
        refine List.any_eq_true.mpr ⟨s, List.mem_cons_self s rest, ?_⟩
        have hstrim : trimWs s = "" := hparts s (by rw [hsp]; exact List.mem_cons_self s rest)
        have hplus : x.plus_one_name = "" := by simpa using hc
        simp [hstrim, hplus, h0]
      | false =>
        refine List.any_eq_false.mpr fun s2 hs2 => ?_
        have hstrim : trimWs s2 = "" := hparts s2 (by rw [hsp]; exact hs2)
        have hplus : x.plus_one_name ≠ "" := by simpa using hc
        simp only [hstrim, h0, Bool.or_eq_true, beq_iff_eq, not_or]
        constructor
        · intro hcontra
          exact hxname hcontra
        · intro hcontra
          exact hplus ((lowercase_eq_empty_iff x.plus_one_name).mp hcontra)

/-- Witness for C10 at concrete inputs. -/
theorem c10_witness :
    ((CsvDb.get ⟨true, [sampleRecord "c" ""], 0⟩ "").map Option.isSome = .ok true)
      ∧ (CsvDb.get ⟨true, [sampleRecord "a" "x", sampleRecord "b" ""], 0⟩ "  "
          = .ok ([sampleRecord "a" "x", sampleRecord "b" ""].find?
              (fun x => x.plus_one_name == ""))) :=
  ⟨c10_get_empty_part.1 ⟨true, [sampleRecord "c" ""], 0⟩ "" (sampleRecord "c" "")
      rfl (by decide) (by decide) (by decide),
   c10_get_empty_part.2 ⟨true, [sampleRecord "a" "x", sampleRecord "b" ""], 0⟩ "  "
      rfl (by decide) (by decide)⟩

/-! ### Claim C8 -/

/-- Claim C8: on a file with its header, `get` splits the query on `'&'`,
trims and lowercases each part, and returns the first record in file order
whose lowercased `name` or `plus_one_name` equals some part (no record
when none matches); in particular, for the query `"Alice & Bob"`, any
record whose name is `"alice"` or whose `plus_one_name` is `"bob"`
(case-insensitively) guarantees a hit. -/
theorem c8_get_semantics :
    (∀ (db : CsvDb) (q : String),
        db.header = true →
        (db.get q = .ok none ↔ ∀ r ∈ db.rows, ∀ s ∈ splitAmp q,
          lowercase r.name ≠ lowercase (trimWs s)
            ∧ lowercase r.plus_one_name ≠ lowercase (trimWs s)))
      ∧ (∀ (db : CsvDb) (q : String) (r : RsvpModel),
          db.header = true →
          db.get q = .ok (some r) →
          (∃ s ∈ splitAmp q, lowercase r.name = lowercase (trimWs s)
              ∨ lowercase r.plus_one_name = lowercase (trimWs s))
            ∧ ∃ l1 l2, db.rows = l1 ++ r :: l2
                ∧ ∀ x ∈ l1, ∀ s ∈ splitAmp q,
                    lowercase x.name ≠ lowercase (trimWs s)
                      ∧ lowercase x.plus_one_name ≠ lowercase (trimWs s))
      ∧ (∀ (db : CsvDb) (r : RsvpModel),
          db.header = true →
          r ∈ db.rows →
          (lowercase r.name = "alice" ∨ lowercase r.plus_one_name = "bob") →
          (db.get "Alice & Bob").map Option.isSome = .ok true) := by
  refine ⟨?_, ?_, ?_⟩
  · intro db q hh
    rw [get_of_header db q hh]
    constructor
    · intro h r hr
      injection h with hf
      exact (matchesQuery_eq_false_iff r q).mp
        (Bool.eq_false_iff.mpr (List.find?_eq_none.mp hf r hr))
    · intro h
      refine congrArg Except.ok ?_
      refine List.find?_eq_none.mpr fun r hr => ?_
      rw [(matchesQuery_eq_false_iff r q).mpr (h r hr)]
      simp
  · intro db q r hh h
    rw [get_of_header db q hh] at h
    injection h with h
    obtain ⟨hp, l1, l2, heq, hl1⟩ := find?_split _ _ _ h
    exact ⟨(matchesQuery_eq_true_iff r q).mp hp, l1, l2, heq,
      fun x hx => (matchesQuery_eq_false_iff x q).mp (hl1 x hx)⟩
  · intro db r hh hr hmatch
    rw [get_of_header db "Alice & Bob" hh]
    have hmq : matchesQuery r "Alice & Bob" = true := by
      refine (matchesQuery_eq_true_iff r "Alice & Bob").mpr ?_
      have hsp : splitAmp "Alice & Bob" = ["Alice ", " Bob"] := by decide
      rcases hmatch with hn | hp
      · refine ⟨"Alice ", by rw [hsp]; exact List.mem_cons_self "Alice " [" Bob"], Or.inl ?_⟩
        have halice : lowercase (trimWs "Alice ") = "alice" := by decide
        rw [halice, hn]
      · refine ⟨" Bob", by rw [hsp]; simp, Or.inr ?_⟩
        have hbob : lowercase (trimWs " Bob") = "bob" := by decide
        rw [hbob, hp]
    have hsome := find?_isSome_of_mem
      (fun rsvp => matchesQuery rsvp "Alice & Bob") db.rows r hr hmq
    simpa [Except.map] using hsome

/-- Witness for C8 at concrete inputs. -/
theorem c8_witness :
    (CsvDb.get ⟨true, [sampleRecord "c" "Bob"], 0⟩ "Alice & Bob").map Option.isSome
      = .ok true :=
  c8_get_semantics.2.2 ⟨true, [sampleRecord "c" "Bob"], 0⟩ (sampleRecord "c" "Bob")
    rfl (by decide) (Or.inr (by decide))

/-! ### Claim C6 -/

/-- Claim C6 counterexample, covering both ways the claim fails on the
code: (a) upserting identical parameters whose name carries surrounding
whitespace twice yields TWO stored rows (the second call's removal trims
the queried name and never matches the untrimmed stored one); (b) on a
fresh headered store, both upserts of the same trimmed name succeed, but
the second call's removal empties the file — the `has_headers` writer then
emits no header — and the merged row is appended headerless, so the
resulting store reports NO record at all: `listAll` is empty and `get` of
the very name finds nothing, refuting "a store containing exactly one
record for p.name". -/
theorem c6_counterexample :
    ((((CsvDb.upsert ⟨true, [], 0⟩ (sampleParams " a ")).2.update_time 1).upsert
          (sampleParams " a ")).2.rows.length = 2)
      ∧ ((CsvDb.upsert ⟨true, [], 0⟩ (sampleParams " a ")).1
          = .ok (RsvpModel.new_with_rsvp (sampleParams " a ") 0))
      ∧ ((CsvDb.upsert ⟨true, [], 0⟩ (sampleParams "a")).1
          = .ok (RsvpModel.new_with_rsvp (sampleParams "a") 0))
      ∧ ((((CsvDb.upsert ⟨true, [], 0⟩ (sampleParams "a")).2.update_time 9).upsert
            (sampleParams "a")).1
          = .ok ((RsvpModel.new_with_rsvp (sampleParams "a") 0).merged (sampleParams "a") 9))
      ∧ ((((CsvDb.upsert ⟨true, [], 0⟩ (sampleParams "a")).2.update_time 9).upsert
            (sampleParams "a")).2.get_all = .ok [])
      ∧ ((((CsvDb.upsert ⟨true, [], 0⟩ (sampleParams "a")).2.update_time 9).upsert
            (sampleParams "a")).2.get (sampleParams "a").name = .ok none) := by
  decide

/-- Claim C6 (amended): for parameters whose name carries no surrounding
whitespace, on a headered store, if the first `upsert(p)` succeeds and
leaves at least one other record in the file (so the second call's rewrite
does not drop the header), then the second `upsert(p)` at time `t2`
succeeds with the merge of the first call's record; the store then lists
all its rows, exactly one of which carries `p.name` — the merged record,
whose `created_at` equals the first call's `created_at` and whose
`updated_at` is `t2` — and that record sits last in the file. -/
theorem c6_upsert_idempotent_key :
    ∀ (db db1 : CsvDb) (p : RsvpParams) (r1 : RsvpModel) (t2 : Nat),
      trimWs p.name = p.name →
      db.header = true →
      db.upsert p = (.ok r1, db1) →
      2 ≤ db1.rows.length →
      ((db1.update_time t2).upsert p).1 = .ok (r1.merged p t2)
        ∧ ((db1.update_time t2).upsert p).2.get_all
            = .ok ((db1.update_time t2).upsert p).2.rows
        ∧ ((db1.update_time t2).upsert p).2.rows.filter
            (fun r => lowercase r.name == lowercase p.name) = [r1.merged p t2]
        ∧ (r1.merged p t2).created_at = r1.created_at
        ∧ (r1.merged p t2).updated_at = t2
        ∧ ((db1.update_time t2).upsert p).2.rows.getLast? = some (r1.merged p t2) := by
  intro db db1 p r1 t2 htrim hh h1 hlen
  obtain ⟨hname, hdt, hrecs, hhead⟩ := upsert_ok_shape db p r1 db1 hh h1
  have hh1 : db1.header = true := by
    rcases hhead with h | h
    · exact h
    · omega
  rw [htrim] at hrecs
  have hprenot : ∀ x ∈ db.rows.filter (fun y => lowercase y.name != lowercase p.name),
      (lowercase x.name == lowercase p.name) = false := by
    intro x hx
    have hb := (List.mem_filter.mp hx).2
    simpa [bne] using hb
  have hr1key : (lowercase r1.name == lowercase p.name) = true := by
    simp [hname]
  have hh1' : (db1.update_time t2).header = true := hh1
  have hfind : (db1.update_time t2).rows.find?
      (fun x => lowercase x.name == lowercase (trimWs p.name)) = some r1 := by
    show db1.rows.find? _ = some r1
    rw [htrim, hrecs, List.find?_append]
    have hn : (db.rows.filter (fun y => lowercase y.name != lowercase p.name)).find?
        (fun x => lowercase x.name == lowercase p.name) = none :=
      List.find?_eq_none.mpr fun x hx => by simp [hprenot x hx]
    rw [hn]
    simp [List.find?_cons, hr1key]
  have hup := upsert_found (db1.update_time t2) p r1 hh1' hfind hname
  have hdt2 : (db1.update_time t2).datetime = t2 := rfl
  rw [hdt2] at hup
  have hpre_ne : db.rows.filter (fun y => lowercase y.name != lowercase p.name) ≠ [] := by
    intro hnil
    rw [hrecs, hnil] at hlen
    simp at hlen
  have hsurv : (db1.update_time t2).rows.filter
      (fun x => lowercase x.name != lowercase (trimWs p.name))
      = db.rows.filter (fun y => lowercase y.name != lowercase p.name) := by
    show db1.rows.filter _ = _
    rw [htrim, hrecs, List.filter_append]
    have e1 : (db.rows.filter (fun y => lowercase y.name != lowercase p.name)).filter
        (fun x => lowercase x.name != lowercase p.name)
        = db.rows.filter (fun y => lowercase y.name != lowercase p.name) :=
      List.filter_eq_self.mpr fun x hx => (List.mem_filter.mp hx).2
    have e2 : ([r1] : List RsvpModel).filter
        (fun x => lowercase x.name != lowercase p.name) = [] := by
      simp [List.filter, bne, hr1key]
    rw [e1, e2]
    simp
  rw [hup]
  refine ⟨rfl, ?_, ?_, rfl, rfl, ?_⟩
  · apply get_all_of_header
    show (!((db1.update_time t2).rows.filter
        (fun x => lowercase x.name != lowercase (trimWs p.name))).isEmpty) = true
    rw [hsurv]
    cases hpre : db.rows.filter (fun y => lowercase y.name != lowercase p.name) with
    | nil => exact absurd hpre hpre_ne
    | cons a l => simp
  · show ((db1.update_time t2).rows.filter
          (fun x => lowercase x.name != lowercase (trimWs p.name))
        ++ [r1.merged p t2]).filter (fun r => lowercase r.name == lowercase p.name)
      = [r1.merged p t2]
    rw [hsurv, List.filter_append]
    have e3 : (db.rows.filter (fun y => lowercase y.name != lowercase p.name)).filter
        (fun r => lowercase r.name == lowercase p.name) = [] :=
      List.filter_eq_nil_iff.mpr fun x hx => by simp [hprenot x hx]
    have e4 : ([r1.merged p t2] : List RsvpModel).filter
        (fun r => lowercase r.name == lowercase p.name) = [r1.merged p t2] := by
      simp [List.filter, merged_name, hname]
    rw [e3, e4]
    simp
  · show ((db1.update_time t2).rows.filter
          (fun x => lowercase x.name != lowercase (trimWs p.name))
        ++ [r1.merged p t2]).getLast? = some (r1.merged p t2)
    exact List.getLast?_concat _

/-- Witness for C6 at concrete inputs. -/
theorem c6_witness :
    (CsvDb.upsert ⟨true, [sampleRecord "b" ""], 0⟩ (sampleParams "a")
        = (.ok (RsvpModel.new_with_rsvp (sampleParams "a") 0),
           ⟨true, [sampleRecord "b" "", RsvpModel.new_with_rsvp (sampleParams "a") 0], 0⟩))
      ∧ (((⟨true, [sampleRecord "b" "", RsvpModel.new_with_rsvp (sampleParams "a") 0], 0⟩ :
            CsvDb).update_time 9).upsert (sampleParams "a")).1
          = .ok ((RsvpModel.new_with_rsvp (sampleParams "a") 0).merged (sampleParams "a") 9)
      ∧ ((RsvpModel.new_with_rsvp (sampleParams "a") 0).merged (sampleParams "a") 9).created_at
          = (RsvpModel.new_with_rsvp (sampleParams "a") 0).created_at
      ∧ ((RsvpModel.new_with_rsvp (sampleParams "a") 0).merged (sampleParams "a") 9).updated_at
          = 9 := by
  have h := c6_upsert_idempotent_key ⟨true, [sampleRecord "b" ""], 0⟩
    ⟨true, [sampleRecord "b" "", RsvpModel.new_with_rsvp (sampleParams "a") 0], 0⟩
    (sampleParams "a") (RsvpModel.new_with_rsvp (sampleParams "a") 0) 9
    (by decide) rfl (by decide) (by decide)
  exact ⟨by decide, h.1, h.2.2.2.1, h.2.2.2.2.1⟩

/-! ### Claim C1 -/

/-- Claim C1 counterexample, covering both ways the claim fails on the
code: (a) upserting parameters named `"john"` into a store holding a
record named `"John"` leaves ZERO rows whose name case-insensitively
equals the parameter name (the removal deletes the record
case-insensitively and then the case-sensitive merge guard fails, so
nothing is appended); (b) at N = 1, re-upserting the lone name empties the
file first, the `has_headers` rewrite emits no header, the merged row is
appended headerless, and `listAll` afterwards returns 0 records instead of
keeping the count at N. -/
theorem c1_counterexample :
    (((CsvDb.upsert ⟨true, [sampleRecord "John" ""], 1⟩ (sampleParams "john")).2.rows.filter
        (fun r => lowercase r.name == lowercase (sampleParams "john").name)).length = 0)
      ∧ ((CsvDb.upsertAll ⟨true, [], 0⟩ [sampleParams "j"]).get_all
          = .ok [RsvpModel.new_with_rsvp (sampleParams "j") 0])
      ∧ (((CsvDb.upsertAll ⟨true, [], 0⟩ [sampleParams "j"]).upsert (sampleParams "j")).1
          = .ok ((RsvpModel.new_with_rsvp (sampleParams "j") 0).merged (sampleParams "j") 0))
      ∧ (((CsvDb.upsertAll ⟨true, [], 0⟩ [sampleParams "j"]).upsert
            (sampleParams "j")).2.get_all = .ok []) := by
  decide

/-- Claim C1 (amended): for parameter names without surrounding whitespace,
(i) on a headered store, whenever `upsert` succeeds the file holds exactly
one row whose name case-insensitively equals the parameter name, and that
row is last; (ii) upserting N parameter sets with pairwise
case-insensitively distinct names into an empty headered store makes
`listAll` return exactly those N records; (iii) for N ≥ 2, re-upserting
one of those names (with any parameter set carrying exactly that name)
succeeds, keeps `listAll`'s count at N, and moves that record's row to the
end; (iv) at N = 1 the re-upsert still succeeds and the merged row is
written, but the rewrite dropped the header, so `listAll` afterwards
returns 0 records. -/
theorem c1_upsert_net_effect :
    (∀ (db db' : CsvDb) (p : RsvpParams) (r : RsvpModel),
        db.header = true →
        trimWs p.name = p.name →
        db.upsert p = (.ok r, db') →
        db'.rows.filter (fun x => lowercase x.name == lowercase p.name) = [r]
          ∧ db'.rows.getLast? = some r)
      ∧ (∀ (ps : List RsvpParams) (t : Nat),
          (∀ p ∈ ps, trimWs p.name = p.name) →
          (ps.map (fun p => lowercase p.name)).Nodup →
          (CsvDb.upsertAll ⟨true, [], t⟩ ps).get_all
              = .ok (ps.map (fun p => RsvpModel.new_with_rsvp p t))
            ∧ (ps.map (fun p => RsvpModel.new_with_rsvp p t)).length = ps.length)
      ∧ (∀ (ps : List RsvpParams) (t : Nat) (p0 q : RsvpParams),
          (∀ p ∈ ps, trimWs p.name = p.name) →
          (ps.map (fun p => lowercase p.name)).Nodup →
          p0 ∈ ps → q.name = p0.name → 2 ≤ ps.length →
          ((CsvDb.upsertAll ⟨true, [], t⟩ ps).upsert q).1
              = .ok ((RsvpModel.new_with_rsvp p0 t).merged q t)
            ∧ ((CsvDb.upsertAll ⟨true, [], t⟩ ps).upsert q).2.get_all
                = .ok ((CsvDb.upsertAll ⟨true, [], t⟩ ps).upsert q).2.rows
            ∧ ((CsvDb.upsertAll ⟨true, [], t⟩ ps).upsert q).2.rows.length = ps.length
            ∧ ((CsvDb.upsertAll ⟨true, [], t⟩ ps).upsert q).2.rows.getLast?
                = some ((RsvpModel.new_with_rsvp p0 t).merged q t))
      ∧ (∀ (p : RsvpParams) (t : Nat),
          trimWs p.name = p.name →
          ((CsvDb.upsertAll ⟨true, [], t⟩ [p]).upsert p).1
              = .ok ((RsvpModel.new_with_rsvp p t).merged p t)
            ∧ ((CsvDb.upsertAll ⟨true, [], t⟩ [p]).upsert p).2.get_all = .ok []) := by
  refine ⟨?_, ?_, ?_, ?_⟩
  · intro db db' p r hh htrim h
    obtain ⟨hname, hdt, hrecs, _⟩ := upsert_ok_shape db p r db' hh h
    rw [htrim] at hrecs
    constructor
    · rw [hrecs, List.filter_append]
      have e1 : (db.rows.filter (fun y => lowercase y.name != lowercase p.name)).filter
          (fun x => lowercase x.name == lowercase p.name) = [] := by
        refine List.filter_eq_nil_iff.mpr fun x hx => ?_
        have hb := (List.mem_filter.mp hx).2
        simp only [bne_iff_ne, ne_eq] at hb
        simp [hb]
      have e2 : ([r] : List RsvpModel).filter
          (fun x => lowercase x.name == lowercase p.name) = [r] := by
        simp [List.filter, hname]
      rw [e1, e2]
      simp
    · rw [hrecs]
      exact List.getLast?_concat _
  · intro ps t htrim hnd
    obtain ⟨hrows, hhead, hdtime⟩ := upsertAll_shape ps ⟨true, [], t⟩ rfl htrim hnd
      (by intro p hp x hx; simp at hx)
    constructor
    · rw [get_all_of_header _ hhead, hrows]
      simp
    · simp
  · intro ps t p0 q htrim hnd hmem hqname hN
    obtain ⟨hrows, hhead, hdtime⟩ := upsertAll_shape ps ⟨true, [], t⟩ rfl htrim hnd
      (by intro p hp x hx; simp at hx)
    have hqtrim : trimWs q.name = q.name := by
      rw [hqname]
      exact htrim p0 hmem
    have hrows' : (CsvDb.upsertAll ⟨true, [], t⟩ ps).rows
        = ps.map (fun p => RsvpModel.new_with_rsvp p t) := by
      rw [hrows]
      simp
    have hfilter : (CsvDb.upsertAll ⟨true, [], t⟩ ps).rows.filter
        (fun x => lowercase x.name == lowercase (trimWs q.name))
        = [RsvpModel.new_with_rsvp p0 t] := by
      rw [hqtrim, hqname, hrows']
      have hcomm : (ps.map (fun p => RsvpModel.new_with_rsvp p t)).filter
          (fun x => lowercase x.name == lowercase p0.name)
          = (ps.filter (fun p => lowercase p.name == lowercase p0.name)).map
              (fun p => RsvpModel.new_with_rsvp p t) :=
        List.map_filter (fun p => RsvpModel.new_with_rsvp p t) ps
      rw [hcomm, filter_key_singleton (fun p => lowercase p.name) ps p0 hnd hmem]
      rfl
    have hfind := find?_of_filter_singleton _ _ _ hfilter
    have hup := upsert_found (CsvDb.upsertAll ⟨true, [], t⟩ ps) q
      (RsvpModel.new_with_rsvp p0 t) hhead hfind (hqname.symm)
    have hdt2 : (CsvDb.upsertAll ⟨true, [], t⟩ ps).datetime = t := hdtime
    rw [hdt2] at hup
    have hlen := length_filter_not_of_filter_singleton _ _ _ hfilter
    have hlenrows : (CsvDb.upsertAll ⟨true, [], t⟩ ps).rows.length = ps.length := by
      rw [hrows']
      simp
    have hbne : (CsvDb.upsertAll ⟨true, [], t⟩ ps).rows.filter
        (fun x => lowercase x.name != lowercase (trimWs q.name))
        = (CsvDb.upsertAll ⟨true, [], t⟩ ps).rows.filter
            (fun x => !(lowercase x.name == lowercase (trimWs q.name))) := rfl
    have hsurv_ne : (CsvDb.upsertAll ⟨true, [], t⟩ ps).rows.filter
        (fun x => !(lowercase x.name == lowercase (trimWs q.name))) ≠ [] := by
      intro hnil
      rw [hnil] at hlen
      simp only [List.length_nil] at hlen
      omega
    rw [hup]
    refine ⟨rfl, ?_, ?_, ?_⟩
    · apply get_all_of_header
      show (!((CsvDb.upsertAll ⟨true, [], t⟩ ps).rows.filter
          (fun x => lowercase x.name != lowercase (trimWs q.name))).isEmpty) = true
      rw [hbne]
      cases hc : (CsvDb.upsertAll ⟨true, [], t⟩ ps).rows.filter
          (fun x => !(lowercase x.name == lowercase (trimWs q.name))) with
      | nil => exact absurd hc hsurv_ne
      | cons a l => simp
    · show ((CsvDb.upsertAll ⟨true, [], t⟩ ps).rows.filter
            (fun x => lowercase x.name != lowercase (trimWs q.name))
          ++ [(RsvpModel.new_with_rsvp p0 t).merged q t]).length = ps.length
      rw [List.length_append, hbne]
      simp only [List.length_cons, List.length_nil]
      omega
    · show ((CsvDb.upsertAll ⟨true, [], t⟩ ps).rows.filter
            (fun x => lowercase x.name != lowercase (trimWs q.name))
          ++ [(RsvpModel.new_with_rsvp p0 t).merged q t]).getLast?
        = some ((RsvpModel.new_with_rsvp p0 t).merged q t)
      exact List.getLast?_concat _
  · intro p t htrim
    have hstep1 := upsert_fresh ⟨true, [], t⟩ p rfl rfl
    have hall : CsvDb.upsertAll ⟨true, [], t⟩ [p]
        = ⟨true, [RsvpModel.new_with_rsvp p t], t⟩ := by
      simp [CsvDb.upsertAll, hstep1]
    have hfind : (⟨true, [RsvpModel.new_with_rsvp p t], t⟩ : CsvDb).rows.find?
        (fun x => lowercase x.name == lowercase (trimWs p.name))
        = some (RsvpModel.new_with_rsvp p t) := by
      show List.find? _ [RsvpModel.new_with_rsvp p t] = _
      rw [htrim]
      simp [List.find?_cons, RsvpModel.new_with_rsvp]
    have hup := upsert_found ⟨true, [RsvpModel.new_with_rsvp p t], t⟩ p
      (RsvpModel.new_with_rsvp p t) rfl hfind rfl
    have hsurv : ([RsvpModel.new_with_rsvp p t] : List RsvpModel).filter
        (fun x => lowercase x.name != lowercase (trimWs p.name)) = [] := by
      rw [htrim]
      simp [List.filter, RsvpModel.new_with_rsvp, bne]
    refine ⟨?_, ?_⟩
    · rw [hall, hup]
    · rw [hall, hup]
      simp [CsvDb.get_all, CsvDb.read, hsurv]

/-- Witness for C1 at concrete inputs. -/
theorem c1_witness :
    ((CsvDb.upsert ⟨true, [], 0⟩ (sampleParams "a")).2.rows.filter
          (fun x => lowercase x.name == lowercase (sampleParams "a").name)
        = [RsvpModel.new_with_rsvp (sampleParams "a") 0])
      ∧ ((CsvDb.upsertAll ⟨true, [], 0⟩ [sampleParams "a", sampleParams "b"]).get_all
          = .ok [RsvpModel.new_with_rsvp (sampleParams "a") 0,
                 RsvpModel.new_with_rsvp (sampleParams "b") 0])
      ∧ (((CsvDb.upsertAll ⟨true, [], 0⟩ [sampleParams "a", sampleParams "b"]).upsert
            (sampleParams "a")).2.rows.length = 2)
      ∧ (((CsvDb.upsertAll ⟨true, [], 0⟩ [sampleParams "j"]).upsert
            (sampleParams "j")).2.get_all = .ok []) := by
  refine ⟨?_, ?_, ?_, ?_⟩
  · exact (c1_upsert_net_effect.1 ⟨true, [], 0⟩
      ⟨true, [RsvpModel.new_with_rsvp (sampleParams "a") 0], 0⟩ (sampleParams "a")
      (RsvpModel.new_with_rsvp (sampleParams "a") 0) rfl (by decide) (by decide)).1
  · have h := (c1_upsert_net_effect.2.1 [sampleParams "a", sampleParams "b"] 0
      (by decide) (by decide)).1
    simpa using h
  · exact (c1_upsert_net_effect.2.2.1 [sampleParams "a", sampleParams "b"] 0
      (sampleParams "a") (sampleParams "a") (by decide) (by decide) (by decide) rfl
      (by decide)).2.2.1
  · exact (c1_upsert_net_effect.2.2.2 (sampleParams "j") 0 (by decide)).2

end ActixRsvp
